import Mathlib

set_option maxHeartbeats 1000000

/-!
Shallow embedding of the configuration-resolution layer of the
tesla-http-proxy-insecure command (Go) from Autolane/vehicle-command.

The embedding covers:
  - the configuration record HTTPProxyConfig with its compiled-in
    defaults (host "localhost", port 8080, verbose false, timeout
    proxy.DefaultTimeout),
  - the environment, modelled as a record of four Option String
    fields, one per variable the program looks up,
  - readFromEnvironment, translated statement by statement with the
    mutable global httpConfig turned into explicit state passing and
    the early error return made explicit,
  - the Go library parsing routines the code calls:
    strconv.Atoi (that is, strconv.ParseInt base 10 on a 64-bit int)
    and time.ParseDuration, with uint64/int64 arithmetic modelled as
    Nat/Int plus the explicit range checks the Go sources perform.

proxy.DefaultTimeout is defined outside this package, so the
functions take it as the parameter defTimeout.

One fidelity note: Go computes the fractional contribution of a
duration item with float64 arithmetic, uint64(float64(f) *
(float64(unit) / scale)).  Here the exact truncated value
f * unit / 10 ^ k is used instead; the two agree except possibly for
float64 rounding on fraction digits at the overflow boundary, a
regime no claim exercises.
-/

/-- Numeric value of an ASCII digit character, as in Go byte
arithmetic c - '0'. -/
def digitVal (c : Char) : Nat := c.toNat - 48

/-- Outcome of strconv.ParseUint: the parsed value, a range error, or
a syntax error. -/
inductive UintRes where
  | ok (n : Nat)
  | outOfRange
  | badInput
deriving DecidableEq

/-- Cutoff used by strconv.ParseUint for base 10, bit size 64:
maxUint64/10 + 1. -/
def uintCutoff : Nat := (2 ^ 64 - 1) / 10 + 1

/-- Digit-consuming loop of strconv.ParseUint (base 10, bitSize 64):
rejects any non-digit, detects overflow past maxUint64. -/
def parseUintLoop (n : Nat) (s : List Char) : UintRes :=
  match s with
  | [] => .ok n
  | c :: rest =>
    if !c.isDigit then .badInput
    else if n ≥ uintCutoff then .outOfRange
    else
      let n1 := n * 10 + digitVal c
      if n1 > 2 ^ 64 - 1 then .outOfRange
      else parseUintLoop n1 rest

/-- strconv.ParseUint(s, 10, 64): empty input is a syntax error. -/
def parseUint (s : List Char) : UintRes :=
  match s with
  | [] => .badInput
  | _ :: _ => parseUintLoop 0 s

/-- strconv.ParseInt(s, 10, 0) on a 64-bit platform: optional sign,
then ParseUint, then the int64 range checks.  Returns the value Go
returns together with an ok flag (true iff the error is nil); on a
syntax error Go returns 0, on a range error the clamped extreme. -/
def parseIntChars (s : List Char) : Int × Bool :=
  match s with
  | [] => (0, false)
  | c :: rest =>
    let neg : Bool := c == '-'
    let digits := if c == '+' || c == '-' then rest else c :: rest
    match parseUint digits with
    | .badInput => (0, false)
    | .outOfRange =>
      (if neg then -(2 ^ 63 : Int) else ((2 ^ 63 - 1 : Int)), false)
    | .ok un =>
      if neg then
        if un > 2 ^ 63 then (-(2 ^ 63 : Int), false)
        else (-(un : Int), true)
      else
        if un ≥ 2 ^ 63 then ((2 ^ 63 - 1 : Int), false)
        else ((un : Int), true)

/-- strconv.Atoi: ParseInt in base 10 into the platform int. -/
def atoi (s : String) : Int × Bool := parseIntChars s.data

/-- time.ParseDuration unit table: nanoseconds per unit. -/
def unitMap (u : List Char) : Option Nat :=
  if u = ['n', 's'] then some 1
  else if u = ['u', 's'] then some 1000
  else if u = ['µ', 's'] then some 1000
  else if u = ['μ', 's'] then some 1000
  else if u = ['m', 's'] then some 1000000
  else if u = ['s'] then some 1000000000
  else if u = ['m'] then some 60000000000
  else if u = ['h'] then some 3600000000000
  else none

/-- time.leadingInt: consume leading digits of s into x, failing on
overflow past 1<<63. -/
def leadingInt (x : Nat) (s : List Char) : Option (Nat × List Char) :=
  match s with
  | [] => some (x, [])
  | c :: rest =>
    if c.isDigit then
      if x > 2 ^ 63 / 10 then none
      else
        let y := x * 10 + digitVal c
        if y > 2 ^ 63 then none
        else leadingInt y rest
    else some (x, c :: rest)

/-- time.leadingFraction: consume fraction digits into x, counting in
k how many digits entered the scale; once overflow would occur,
further digits are consumed but ignored. -/
def leadingFraction (x k : Nat) (ovfl : Bool) (s : List Char) :
    Nat × Nat × List Char :=
  match s with
  | [] => (x, k, [])
  | c :: rest =>
    if c.isDigit then
      if ovfl then leadingFraction x k true rest
      else if x > (2 ^ 63 - 1) / 10 then leadingFraction x k true rest
      else
        let y := x * 10 + digitVal c
        if y > 2 ^ 63 then leadingFraction x k true rest
        else leadingFraction y (k + 1) false rest
    else (x, k, c :: rest)

/-- Character class ending a duration unit: a dot or a digit. -/
def nonNumChar (c : Char) : Bool := !(c == '.' || c.isDigit)

/-- Unit-and-scaling tail of one iteration of the time.ParseDuration
loop: extract the unit name, look it up, apply the overflow-checked
multiplication and the fractional contribution. -/
def parseDurUnit (v f k : Nat) (s2 : List Char) :
    Option (Nat × List Char) :=
  let u := s2.takeWhile nonNumChar
  let s3 := s2.dropWhile nonNumChar
  if u.isEmpty then none
  else
    match unitMap u with
    | none => none
    | some unit =>
      if v > 2 ^ 63 / unit then none
      else
        let v1 := v * unit
        if f > 0 then
          let v2 := v1 + f * unit / 10 ^ k
          if v2 > 2 ^ 63 then none else some (v2, s3)
        else some (v1, s3)

/-- One iteration of the time.ParseDuration loop: an item of shape
digits, optional dot and fraction digits, then a unit name.  Returns
the item value in nanoseconds and the remaining input. -/
def parseDurItem (s : List Char) : Option (Nat × List Char) :=
  match s with
  | [] => none
  | c0 :: _ =>
    if nonNumChar c0 then none
    else
      match leadingInt 0 s with
      | none => none
      | some (v, s1) =>
        let pre : Bool := s1.length != s.length
        match s1 with
        | c1 :: r1 =>
          if c1 == '.' then
            match leadingFraction 0 0 false r1 with
            | (f, k, s2) =>
              let post : Bool := s2.length != r1.length
              if !pre && !post then none
              else parseDurUnit v f k s2
          else if !pre then none
          else parseDurUnit v 0 0 (c1 :: r1)
        | [] =>
          if !pre then none
          else parseDurUnit v 0 0 []

theorem leadingInt_rest_le (s : List Char) :
    ∀ x v r, leadingInt x s = some (v, r) → r.length ≤ s.length := by
  induction s with
  | nil =>
    intro x v r h
    simp only [leadingInt, Option.some.injEq, Prod.mk.injEq] at h
    obtain ⟨-, rfl⟩ := h
    simp
  | cons c rest ih =>
    intro x v r h
    unfold leadingInt at h
    dsimp only at h
    split at h
    · split at h
      · cases h
      · split at h
        · cases h
        · exact Nat.le_trans (ih _ _ _ h) (Nat.le_succ _)
    · simp only [Option.some.injEq, Prod.mk.injEq] at h
      obtain ⟨-, rfl⟩ := h
      simp

theorem leadingFraction_rest_le (s : List Char) :
    ∀ x k o, (leadingFraction x k o s).2.2.length ≤ s.length := by
  induction s with
  | nil => intro x k o; simp [leadingFraction]
  | cons c rest ih =>
    intro x k o
    unfold leadingFraction
    dsimp only
    split
    · split
      · exact Nat.le_trans (ih x k true) (Nat.le_succ _)
      · split
        · exact Nat.le_trans (ih x k true) (Nat.le_succ _)
        · split
          · exact Nat.le_trans (ih x k true) (Nat.le_succ _)
          · exact Nat.le_trans (ih _ _ false) (Nat.le_succ _)
    · simp

theorem parseDurUnit_some (v f k : Nat) (s2 : List Char)
    (v2 : Nat) (r : List Char)
    (h : parseDurUnit v f k s2 = some (v2, r)) :
    r = s2.dropWhile nonNumChar ∧
      (s2.takeWhile nonNumChar).isEmpty = false := by
  unfold parseDurUnit at h
  dsimp only at h
  by_cases hu : (s2.takeWhile nonNumChar).isEmpty
  · rw [if_pos hu] at h
    cases h
  · rw [if_neg hu] at h
    refine ⟨?_, by simpa using hu⟩
    cases hm : unitMap (s2.takeWhile nonNumChar) with
    | none =>
      rw [hm] at h
      cases h
    | some unit =>
      rw [hm] at h
      dsimp only at h
      split at h
      · cases h
      · split at h
        · split at h
          · cases h
          · simp only [Option.some.injEq, Prod.mk.injEq] at h
            exact h.2.symm
        · simp only [Option.some.injEq, Prod.mk.injEq] at h
          exact h.2.symm

theorem parseDurUnit_rest_lt (v f k : Nat) (s2 : List Char)
    (v2 : Nat) (r : List Char)
    (h : parseDurUnit v f k s2 = some (v2, r)) : r.length < s2.length := by
  obtain ⟨hr, hne⟩ := parseDurUnit_some v f k s2 v2 r h
  have hlen : (s2.takeWhile nonNumChar).length +
      (s2.dropWhile nonNumChar).length = s2.length := by
    conv_rhs => rw [← List.takeWhile_append_dropWhile (p := nonNumChar) (l := s2)]
    exact (List.length_append _ _).symm
  have hpos : 0 < (s2.takeWhile nonNumChar).length := by
    cases hts : s2.takeWhile nonNumChar with
    | nil => rw [hts] at hne; simp at hne
    | cons a l => simp
  subst hr
  omega

theorem parseDurItem_rest_lt (s : List Char) (v : Nat) (r : List Char) :
    parseDurItem s = some (v, r) → r.length < s.length := by
  cases s with
  | nil => intro h; simp [parseDurItem] at h
  | cons c0 tail =>
    intro h
    unfold parseDurItem at h
    dsimp only at h
    split at h
    · cases h
    · split at h
      · cases h
      · rename_i v0 s1 hli
        have hs1 : s1.length ≤ (c0 :: tail).length :=
          leadingInt_rest_le _ _ _ _ hli
        split at h
        · rename_i c1 r1
          split at h
          · split at h
            · cases h
            · have hlt := parseDurUnit_rest_lt _ _ _ _ _ _ h
              have hs2 : (leadingFraction 0 0 false r1).2.2.length ≤ r1.length :=
                leadingFraction_rest_le r1 0 0 false
              have h3 : r.length < r1.length := Nat.lt_of_lt_of_le hlt hs2
              simp only [List.length_cons] at hs1 ⊢
              omega
          · split at h
            · cases h
            · have hlt := parseDurUnit_rest_lt _ _ _ _ _ _ h
              simp only [List.length_cons] at hs1 hlt ⊢
              omega
        · split at h
          · cases h
          · have hlt := parseDurUnit_rest_lt _ _ _ _ _ _ h
            simp at hlt

/-- Main accumulation loop of time.ParseDuration, written with a
fuel parameter so that it reduces inside the kernel: repeatedly
parse items while input remains, adding their values with the uint64
wrap and the overflow check d > 1<<63 the Go code performs after
each addition.  Every item consumes at least one character
(parseDurItem_rest_lt), so any fuel above the input length is
enough; durItemsF_fuel_irrelevant below proves the fuel never runs
out at the value durItems passes. -/
def durItemsF (fuel : Nat) (d : Nat) (s : List Char) : Option Nat :=
  match fuel with
  | 0 => none
  | fuel + 1 =>
    if s = [] then some d
    else
      match parseDurItem s with
      | none => none
      | some (v, rest) =>
        let d1 := (d + v) % 2 ^ 64
        if d1 > 2 ^ 63 then none
        else durItemsF fuel d1 rest

/-- The time.ParseDuration item loop at sufficient fuel. -/
def durItems (d : Nat) (s : List Char) : Option Nat :=
  durItemsF (s.length + 1) d s

theorem durItemsF_fuel_irrelevant (f1 : Nat) :
    ∀ f2 d s, s.length < f1 → s.length < f2 →
      durItemsF f1 d s = durItemsF f2 d s := by
  induction f1 with
  | zero =>
    intro f2 d s h1 h2
    exact absurd h1 (Nat.not_lt_zero _)
  | succ f1 ih =>
    intro f2 d s h1 h2
    match f2 with
    | 0 => exact absurd h2 (Nat.not_lt_zero _)
    | f2 + 1 =>
      unfold durItemsF
      by_cases hs : s = []
      · rw [if_pos hs, if_pos hs]
      · rw [if_neg hs, if_neg hs]
        cases hp : parseDurItem s with
        | none => rfl
        | some pr =>
          obtain ⟨v, rest⟩ := pr
          dsimp only
          have hlt : rest.length < s.length := parseDurItem_rest_lt _ _ _ hp
          by_cases hd : (d + v) % 2 ^ 64 > 2 ^ 63
          · rw [if_pos hd, if_pos hd]
          · rw [if_neg hd, if_neg hd]
            exact ih f2 _ rest (by omega) (by omega)

/-- time.ParseDuration: optional sign, the special case "0", then the
item loop; returns the Go return value (0 on every error) together
with an ok flag (true iff the error is nil). -/
def parseDuration (s : String) : Int × Bool :=
  let l := s.data
  let neg : Bool :=
    match l with
    | c :: _ => c == '-'
    | [] => false
  let core :=
    match l with
    | c :: rest => if c == '-' || c == '+' then rest else l
    | [] => l
  if core = ['0'] then (0, true)
  else if core = [] then (0, false)
  else
    match durItems 0 core with
    | none => (0, false)
    | some d =>
      if neg then (-(d : Int), true)
      else if d > 2 ^ 63 - 1 then (0, false)
      else ((d : Int), true)

/-- HTTPProxyConfig from main.go: configuration for the HTTP-only
proxy server.  time.Duration is an int64 count of nanoseconds,
modelled as Int. -/
@[ext]
structure HTTPProxyConfig where
  verbose : Bool
  host : String
  port : Int
  timeout : Int
deriving DecidableEq

/-- The defaultPort constant from main.go. -/
def defaultPort : Int := 8080

/-- The process environment as far as readFromEnvironment observes
it: the result of os.LookupEnv on each of the four variables
TESLA_HTTP_PROXY_HOST, TESLA_HTTP_PROXY_PORT,
TESLA_HTTP_PROXY_TIMEOUT and TESLA_VERBOSE. -/
structure Env where
  host : Option String
  port : Option String
  timeout : Option String
  verbose : Option String
deriving DecidableEq

/-- The record produced by init(): every field holds its flag
default (verbose false, host "localhost", port defaultPort, timeout
proxy.DefaultTimeout, the latter passed as defTimeout). -/
def initConfig (defTimeout : Int) : HTTPProxyConfig :=
  { verbose := false, host := "localhost", port := defaultPort,
    timeout := defTimeout }

/-- The permissive boolean parse applied to TESLA_VERBOSE:
verbose != "false" && verbose != "0". -/
def envVerboseValue (v : String) : Bool := v != "false" && v != "0"

/-- First block of readFromEnvironment: the host variable is
consulted only while the host field still equals "localhost". -/
def applyHost (e : Env) (c : HTTPProxyConfig) : HTTPProxyConfig :=
  if c.host = "localhost" then
    match e.host with
    | some h => { c with host := h }
    | none => c
  else c

/-- Second block of readFromEnvironment: the verbose variable is
consulted only while the verbose field is still false. -/
def applyVerbose (e : Env) (c : HTTPProxyConfig) : HTTPProxyConfig :=
  if c.verbose = false then
    match e.verbose with
    | some v => { c with verbose := envVerboseValue v }
    | none => c
  else c

/-- Fourth block of readFromEnvironment: the timeout variable is
consulted only while the timeout field still equals
proxy.DefaultTimeout; the field receives time.ParseDuration's return
value and a parse failure produces the error return. -/
def applyTimeout (defTimeout : Int) (e : Env) (c : HTTPProxyConfig) :
    HTTPProxyConfig × Option String :=
  if c.timeout = defTimeout then
    match e.timeout with
    | some t =>
      let r := parseDuration t
      if r.2 then ({ c with timeout := r.1 }, none)
      else ({ c with timeout := r.1 }, some ("invalid timeout: " ++ t))
    | none => (c, none)
  else (c, none)

/-- Third and fourth blocks of readFromEnvironment: the port variable
is consulted only while the port field still equals defaultPort; the
field receives strconv.Atoi's return value, a parse failure returns
the error immediately (skipping the timeout block), and otherwise the
timeout block runs. -/
def applyPortThenTimeout (defTimeout : Int) (e : Env)
    (c : HTTPProxyConfig) : HTTPProxyConfig × Option String :=
  if c.port = defaultPort then
    match e.port with
    | some p =>
      let r := atoi p
      if r.2 then applyTimeout defTimeout e { c with port := r.1 }
      else ({ c with port := r.1 }, some ("invalid port: " ++ p))
    | none => applyTimeout defTimeout e c
  else applyTimeout defTimeout e c

/-- readFromEnvironment from main.go, with the global httpConfig
passed (and returned) explicitly: host block, verbose block, port
block, timeout block, in the source order, with the early error
return on a bad port value. -/
def readFromEnvironment (defTimeout : Int) (e : Env)
    (c : HTTPProxyConfig) : HTTPProxyConfig × Option String :=
  applyPortThenTimeout defTimeout e (applyVerbose e (applyHost e c))

/-- The error readFromEnvironment produces from the port block on a
given record: present variable, port field at its default, parse
failure. -/
def portEnvError (e : Env) (c : HTTPProxyConfig) : Option String :=
  match e.port with
  | some p =>
    if c.port = defaultPort ∧ (atoi p).2 = false then
      some ("invalid port: " ++ p)
    else none
  | none => none

/-- The error readFromEnvironment produces from the timeout block on
a given record: present variable, timeout field at its default, parse
failure. -/
def timeoutEnvError (d : Int) (e : Env) (c : HTTPProxyConfig) :
    Option String :=
  match e.timeout with
  | some t =>
    if c.timeout = d ∧ (parseDuration t).2 = false then
      some ("invalid timeout: " ++ t)
    else none
  | none => none

theorem applyHost_verbose (e : Env) (c : HTTPProxyConfig) :
    (applyHost e c).verbose = c.verbose := by
  unfold applyHost
  split
  · cases e.host <;> rfl
  · rfl

theorem applyHost_port (e : Env) (c : HTTPProxyConfig) :
    (applyHost e c).port = c.port := by
  unfold applyHost
  split
  · cases e.host <;> rfl
  · rfl

theorem applyHost_timeout (e : Env) (c : HTTPProxyConfig) :
    (applyHost e c).timeout = c.timeout := by
  unfold applyHost
  split
  · cases e.host <;> rfl
  · rfl

theorem applyHost_host (e : Env) (c : HTTPProxyConfig) :
    (applyHost e c).host =
      match e.host with
      | some h => if c.host = "localhost" then h else c.host
      | none => c.host := by
  unfold applyHost
  by_cases hh : c.host = "localhost"
  · rw [if_pos hh]
    cases e.host <;> simp [hh]
  · rw [if_neg hh]
    cases e.host <;> simp [hh]

theorem applyVerbose_host (e : Env) (c : HTTPProxyConfig) :
    (applyVerbose e c).host = c.host := by
  unfold applyVerbose
  split
  · cases e.verbose <;> rfl
  · rfl

theorem applyVerbose_port (e : Env) (c : HTTPProxyConfig) :
    (applyVerbose e c).port = c.port := by
  unfold applyVerbose
  split
  · cases e.verbose <;> rfl
  · rfl

theorem applyVerbose_timeout (e : Env) (c : HTTPProxyConfig) :
    (applyVerbose e c).timeout = c.timeout := by
  unfold applyVerbose
  split
  · cases e.verbose <;> rfl
  · rfl

theorem applyVerbose_verbose (e : Env) (c : HTTPProxyConfig) :
    (applyVerbose e c).verbose =
      match e.verbose with
      | some v => c.verbose || envVerboseValue v
      | none => c.verbose := by
  unfold applyVerbose
  by_cases hv : c.verbose = false
  · rw [if_pos hv]
    cases e.verbose <;> simp [hv]
  · rw [if_neg hv]
    have hv1 : c.verbose = true := by revert hv; cases c.verbose <;> simp
    cases e.verbose <;> simp [hv1]

theorem applyTimeout_skip (d : Int) (e : Env) (c : HTTPProxyConfig)
    (h : c.timeout ≠ d) : applyTimeout d e c = (c, none) := by
  unfold applyTimeout
  rw [if_neg h]

theorem applyTimeout_envNone (d : Int) (e : Env) (c : HTTPProxyConfig)
    (h : e.timeout = none) : applyTimeout d e c = (c, none) := by
  unfold applyTimeout
  rw [h]
  split <;> rfl

theorem applyTimeout_envSome (d : Int) (e : Env) (c : HTTPProxyConfig)
    (t : String) (h1 : c.timeout = d) (h2 : e.timeout = some t) :
    applyTimeout d e c =
      ({ c with timeout := (parseDuration t).1 },
        if (parseDuration t).2 then none
        else some ("invalid timeout: " ++ t)) := by
  unfold applyTimeout
  rw [if_pos h1, h2]
  dsimp only
  split <;> simp_all

theorem applyTimeout_fst_host (d : Int) (e : Env) (c : HTTPProxyConfig) :
    ((applyTimeout d e c).1).host = c.host := by
  unfold applyTimeout
  split
  · cases e.timeout with
    | none => rfl
    | some t => dsimp only; split <;> rfl
  · rfl

theorem applyTimeout_fst_port (d : Int) (e : Env) (c : HTTPProxyConfig) :
    ((applyTimeout d e c).1).port = c.port := by
  unfold applyTimeout
  split
  · cases e.timeout with
    | none => rfl
    | some t => dsimp only; split <;> rfl
  · rfl

theorem applyTimeout_fst_verbose (d : Int) (e : Env) (c : HTTPProxyConfig) :
    ((applyTimeout d e c).1).verbose = c.verbose := by
  unfold applyTimeout
  split
  · cases e.timeout with
    | none => rfl
    | some t => dsimp only; split <;> rfl
  · rfl

theorem applyTimeout_fst_timeout (d : Int) (e : Env) (c : HTTPProxyConfig) :
    ((applyTimeout d e c).1).timeout =
      match e.timeout with
      | some t => if c.timeout = d then (parseDuration t).1 else c.timeout
      | none => c.timeout := by
  unfold applyTimeout
  by_cases hd : c.timeout = d
  · rw [if_pos hd]
    cases e.timeout with
    | none => simp [hd]
    | some t => dsimp only; split <;> simp [hd]
  · rw [if_neg hd]
    cases e.timeout <;> simp [hd]

theorem applyTimeout_snd (d : Int) (e : Env) (c : HTTPProxyConfig) :
    (applyTimeout d e c).2 = timeoutEnvError d e c := by
  unfold applyTimeout timeoutEnvError
  by_cases hd : c.timeout = d
  · rw [if_pos hd]
    cases e.timeout with
    | none => rfl
    | some t =>
      dsimp only
      by_cases hp : (parseDuration t).2
      · rw [if_pos hp]
        simp [hd, hp]
      · rw [if_neg hp]
        simp only [Bool.not_eq_true] at hp
        simp [hd, hp]
  · rw [if_neg hd]
    cases e.timeout with
    | none => rfl
    | some t => simp [hd]

theorem timeoutEnvError_congr (d : Int) (e : Env)
    (c1 c2 : HTTPProxyConfig) (h : c1.timeout = c2.timeout) :
    timeoutEnvError d e c1 = timeoutEnvError d e c2 := by
  unfold timeoutEnvError
  cases e.timeout <;> simp [h]

theorem portEnvError_congr (e : Env) (c1 c2 : HTTPProxyConfig)
    (h : c1.port = c2.port) :
    portEnvError e c1 = portEnvError e c2 := by
  unfold portEnvError
  cases e.port <;> simp [h]

theorem applyPortThenTimeout_skip (d : Int) (e : Env)
    (c : HTTPProxyConfig) (h : c.port ≠ defaultPort) :
    applyPortThenTimeout d e c = applyTimeout d e c := by
  unfold applyPortThenTimeout
  rw [if_neg h]

theorem applyPortThenTimeout_envNone (d : Int) (e : Env)
    (c : HTTPProxyConfig) (h : e.port = none) :
    applyPortThenTimeout d e c = applyTimeout d e c := by
  unfold applyPortThenTimeout
  rw [h]
  split <;> rfl

theorem applyPortThenTimeout_ok (d : Int) (e : Env)
    (c : HTTPProxyConfig) (p : String) (h1 : c.port = defaultPort)
    (h2 : e.port = some p) (h3 : (atoi p).2 = true) :
    applyPortThenTimeout d e c =
      applyTimeout d e { c with port := (atoi p).1 } := by
  unfold applyPortThenTimeout
  rw [if_pos h1, h2]
  dsimp only
  rw [h3]
  rfl

theorem applyPortThenTimeout_bad (d : Int) (e : Env)
    (c : HTTPProxyConfig) (p : String) (h1 : c.port = defaultPort)
    (h2 : e.port = some p) (h3 : (atoi p).2 = false) :
    applyPortThenTimeout d e c =
      ({ c with port := (atoi p).1 }, some ("invalid port: " ++ p)) := by
  unfold applyPortThenTimeout
  rw [if_pos h1, h2]
  dsimp only
  rw [h3]
  rfl

theorem applyPortThenTimeout_fst_host (d : Int) (e : Env)
    (c : HTTPProxyConfig) :
    ((applyPortThenTimeout d e c).1).host = c.host := by
  unfold applyPortThenTimeout
  split
  · cases e.port with
    | none => exact applyTimeout_fst_host d e c
    | some p =>
      dsimp only
      split
      · rw [applyTimeout_fst_host]
      · rfl
  · exact applyTimeout_fst_host d e c

theorem applyPortThenTimeout_fst_verbose (d : Int) (e : Env)
    (c : HTTPProxyConfig) :
    ((applyPortThenTimeout d e c).1).verbose = c.verbose := by
  unfold applyPortThenTimeout
  split
  · cases e.port with
    | none => exact applyTimeout_fst_verbose d e c
    | some p =>
      dsimp only
      split
      · rw [applyTimeout_fst_verbose]
      · rfl
  · exact applyTimeout_fst_verbose d e c

theorem applyPortThenTimeout_fst_port (d : Int) (e : Env)
    (c : HTTPProxyConfig) :
    ((applyPortThenTimeout d e c).1).port =
      match e.port with
      | some p => if c.port = defaultPort then (atoi p).1 else c.port
      | none => c.port := by
  unfold applyPortThenTimeout
  by_cases hp : c.port = defaultPort
  · rw [if_pos hp]
    cases e.port with
    | none => rw [applyTimeout_fst_port]
    | some p =>
      dsimp only
      split
      · rw [applyTimeout_fst_port]
      · simp [hp]
  · rw [if_neg hp]
    cases e.port with
    | none => rw [applyTimeout_fst_port]
    | some p => rw [applyTimeout_fst_port]; simp [hp]

theorem applyPortThenTimeout_fst_timeout (d : Int) (e : Env)
    (c : HTTPProxyConfig) :
    ((applyPortThenTimeout d e c).1).timeout =
      match portEnvError e c with
      | some _ => c.timeout
      | none =>
        match e.timeout with
        | some t => if c.timeout = d then (parseDuration t).1 else c.timeout
        | none => c.timeout := by
  unfold applyPortThenTimeout portEnvError
  by_cases hp : c.port = defaultPort
  · rw [if_pos hp]
    cases e.port with
    | none => rw [applyTimeout_fst_timeout]
    | some p =>
      dsimp only
      by_cases ha : (atoi p).2
      · rw [if_pos ha]
        rw [applyTimeout_fst_timeout]
        simp [hp, ha]
      · rw [if_neg ha]
        simp only [Bool.not_eq_true] at ha
        simp [hp, ha]
  · rw [if_neg hp]
    rw [applyTimeout_fst_timeout]
    cases e.port with
    | none => rfl
    | some p => simp [hp]

theorem applyPortThenTimeout_snd (d : Int) (e : Env)
    (c : HTTPProxyConfig) :
    (applyPortThenTimeout d e c).2 =
      match portEnvError e c with
      | some m => some m
      | none => timeoutEnvError d e c := by
  unfold applyPortThenTimeout portEnvError
  by_cases hp : c.port = defaultPort
  · rw [if_pos hp]
    cases e.port with
    | none => rw [applyTimeout_snd]
    | some p =>
      dsimp only
      by_cases ha : (atoi p).2
      · rw [if_pos ha]
        rw [applyTimeout_snd]
        rw [timeoutEnvError_congr d e { c with port := (atoi p).1 } c rfl]
        simp [hp, ha]
      · rw [if_neg ha]
        simp only [Bool.not_eq_true] at ha
        simp [hp, ha]
  · rw [if_neg hp]
    rw [applyTimeout_snd]
    cases e.port with
    | none => rfl
    | some p => simp [hp]

theorem readFromEnvironment_fst_host (d : Int) (e : Env)
    (c : HTTPProxyConfig) :
    ((readFromEnvironment d e c).1).host =
      match e.host with
      | some h => if c.host = "localhost" then h else c.host
      | none => c.host := by
  unfold readFromEnvironment
  rw [applyPortThenTimeout_fst_host, applyVerbose_host, applyHost_host]

theorem readFromEnvironment_fst_verbose (d : Int) (e : Env)
    (c : HTTPProxyConfig) :
    ((readFromEnvironment d e c).1).verbose =
      match e.verbose with
      | some v => c.verbose || envVerboseValue v
      | none => c.verbose := by
  unfold readFromEnvironment
  rw [applyPortThenTimeout_fst_verbose, applyVerbose_verbose,
    applyHost_verbose]

theorem readFromEnvironment_fst_port (d : Int) (e : Env)
    (c : HTTPProxyConfig) :
    ((readFromEnvironment d e c).1).port =
      match e.port with
      | some p => if c.port = defaultPort then (atoi p).1 else c.port
      | none => c.port := by
  unfold readFromEnvironment
  rw [applyPortThenTimeout_fst_port]
  cases e.port <;>
    rw [applyVerbose_port, applyHost_port]

theorem readFromEnvironment_fst_timeout (d : Int) (e : Env)
    (c : HTTPProxyConfig) :
    ((readFromEnvironment d e c).1).timeout =
      match portEnvError e c with
      | some _ => c.timeout
      | none =>
        match e.timeout with
        | some t => if c.timeout = d then (parseDuration t).1 else c.timeout
        | none => c.timeout := by
  unfold readFromEnvironment
  rw [applyPortThenTimeout_fst_timeout]
  rw [portEnvError_congr e (applyVerbose e (applyHost e c)) c
    (by rw [applyVerbose_port, applyHost_port])]
  cases portEnvError e c with
  | some m => rw [applyVerbose_timeout, applyHost_timeout]
  | none =>
    cases e.timeout with
    | none => rw [applyVerbose_timeout, applyHost_timeout]
    | some t => rw [applyVerbose_timeout, applyHost_timeout]

theorem readFromEnvironment_snd (d : Int) (e : Env)
    (c : HTTPProxyConfig) :
    (readFromEnvironment d e c).2 =
      match portEnvError e c with
      | some m => some m
      | none => timeoutEnvError d e c := by
  unfold readFromEnvironment
  rw [applyPortThenTimeout_snd]
  rw [portEnvError_congr e (applyVerbose e (applyHost e c)) c
    (by rw [applyVerbose_port, applyHost_port])]
  rw [timeoutEnvError_congr d e (applyVerbose e (applyHost e c)) c
    (by rw [applyVerbose_timeout, applyHost_timeout])]

theorem atoi_int64_range (s : String) :
    -(2 ^ 63) ≤ (atoi s).1 ∧ (atoi s).1 ≤ 2 ^ 63 - 1 := by
  unfold atoi parseIntChars
  split
  · simp
  · dsimp only
    split
    · simp
    · split <;> simp
    · split
      · split
        · simp
        · rename_i hle
          simp only [Nat.not_lt] at hle
          constructor <;> simp only <;> omega
      · split
        · simp
        · rename_i hlt
          simp only [Nat.not_le] at hlt
          constructor <;> simp only <;> omega

theorem atoi_values (s : String) :
    (atoi s).2 = true ∨ (atoi s).1 = 0 ∨ (atoi s).1 = 2 ^ 63 - 1 ∨
      (atoi s).1 = -(2 ^ 63) := by
  unfold atoi parseIntChars
  split
  · right; left; rfl
  · dsimp only
    split
    · right; left; rfl
    · split
      · right; right; right; rfl
      · right; right; left; rfl
    · split
      · split
        · right; right; right; rfl
        · left; rfl
      · split
        · right; right; left; rfl
        · left; rfl

theorem parseDuration_values (s : String) :
    (parseDuration s).2 = true ∨ (parseDuration s).1 = 0 := by
  unfold parseDuration
  dsimp only
  split
  · left; rfl
  · split
    · right; rfl
    · split
      · right; rfl
      · split
        · left; rfl
        · split
          · right; rfl
          · left; rfl

/-- C1 (flag-over-environment precedence): a field whose current
value differs from its compiled-in default (host "localhost", port
defaultPort, verbose false, timeout proxy.DefaultTimeout) is never
touched by readFromEnvironment, so a flag value differing from the
default survives resolution whatever the environment contains. -/
theorem claim1_flags_win (d : Int) (e : Env) (c : HTTPProxyConfig) :
    (c.host ≠ "localhost" →
      ((readFromEnvironment d e c).1).host = c.host) ∧
    (c.verbose = true →
      ((readFromEnvironment d e c).1).verbose = c.verbose) ∧
    (c.port ≠ defaultPort →
      ((readFromEnvironment d e c).1).port = c.port) ∧
    (c.timeout ≠ d →
      ((readFromEnvironment d e c).1).timeout = c.timeout) := by
  refine ⟨?_, ?_, ?_, ?_⟩
  · intro h
    rw [readFromEnvironment_fst_host]
    cases e.host <;> simp [h]
  · intro h
    rw [readFromEnvironment_fst_verbose]
    cases e.verbose <;> simp [h]
  · intro h
    rw [readFromEnvironment_fst_port]
    cases e.port <;> simp [h]
  · intro h
    rw [readFromEnvironment_fst_timeout]
    cases portEnvError e c with
    | some m => rfl
    | none => cases e.timeout <;> simp [h]

/-- Witness for claim1_flags_win: flags differing from every default
beat a fully populated, conflicting environment. -/
theorem claim1_flags_win_witness :
    ((readFromEnvironment 10000000000
        ⟨some "envhost", some "9090", some "30s", some "true"⟩
        ⟨true, "flaghost", 8888, 60000000000⟩).1) =
      ⟨true, "flaghost", 8888, 60000000000⟩ := by
  obtain ⟨h1, h2, h3, h4⟩ := claim1_flags_win 10000000000
    ⟨some "envhost", some "9090", some "30s", some "true"⟩
    ⟨true, "flaghost", 8888, 60000000000⟩
  exact HTTPProxyConfig.ext (h2 rfl) (h1 (by decide)) (h3 (by decide))
    (h4 (by decide))

/-- C2 counterexample: record at all defaults, port variable "x"
(invalid), timeout variable "30s" (present and valid).  The claim
says the resolved timeout is the parsed environment value; the code
returns early from the port error and leaves timeout at its
default, which differs from the parsed 30s. -/
theorem claim2_counterexample :
    (parseDuration "30s").2 = true ∧
    ((readFromEnvironment 10000000000
        ⟨none, some "x", some "30s", none⟩
        (initConfig 10000000000)).1).timeout = 10000000000 ∧
    (10000000000 : Int) ≠ (parseDuration "30s").1 := by
  refine ⟨by decide, by decide, by decide⟩

/-- C2 amended (silent override of a default-valued field): a field
equal to its compiled-in default receives the parsed value of its
present, well-formed environment variable — unconditionally for
host, verbose and port, and for timeout provided the port block did
not fail, since a port parse error returns before the timeout block
runs. -/
theorem claim2_env_overrides_default (d : Int) (e : Env)
    (c : HTTPProxyConfig) :
    (∀ h, c.host = "localhost" → e.host = some h →
      ((readFromEnvironment d e c).1).host = h) ∧
    (∀ v, c.verbose = false → e.verbose = some v →
      ((readFromEnvironment d e c).1).verbose = envVerboseValue v) ∧
    (∀ p, c.port = defaultPort → e.port = some p → (atoi p).2 = true →
      ((readFromEnvironment d e c).1).port = (atoi p).1) ∧
    (∀ t, c.timeout = d → e.timeout = some t → (parseDuration t).2 = true →
      portEnvError e c = none →
      ((readFromEnvironment d e c).1).timeout = (parseDuration t).1) := by
  refine ⟨?_, ?_, ?_, ?_⟩
  · intro h hh he
    rw [readFromEnvironment_fst_host]
    simp only [he]
    rw [if_pos hh]
  · intro v hv he
    rw [readFromEnvironment_fst_verbose]
    simp only [he, hv, Bool.false_or]
  · intro p hp he ha
    rw [readFromEnvironment_fst_port]
    simp only [he]
    rw [if_pos hp]
  · intro t ht he hok hpe
    rw [readFromEnvironment_fst_timeout]
    simp only [hpe, he]
    rw [if_pos ht]

/-- Witness for claim2_env_overrides_default: all four variables
present and valid against an all-default record; every field takes
the parsed environment value. -/
theorem claim2_env_overrides_default_witness :
    ((readFromEnvironment 10000000000
        ⟨some "0.0.0.0", some "9090", some "30s", some "yes"⟩
        (initConfig 10000000000)).1) =
      ⟨true, "0.0.0.0", 9090, 30000000000⟩ := by
  obtain ⟨h1, h2, h3, h4⟩ := claim2_env_overrides_default 10000000000
    ⟨some "0.0.0.0", some "9090", some "30s", some "yes"⟩
    (initConfig 10000000000)
  refine HTTPProxyConfig.ext ?_ ?_ ?_ ?_
  · rw [h2 "yes" rfl rfl]
    decide
  · rw [h1 "0.0.0.0" rfl rfl]
  · rw [h3 "9090" rfl rfl (by decide)]
    decide
  · rw [h4 "30s" rfl rfl (by decide) (by decide)]
    decide

/-- C3 (permissive verbose parsing): with the verbose field still
false and TESLA_VERBOSE present, the resolved verbose is false
exactly for the literal strings "false" and "0" and true for every
other value; an absent variable leaves the field untouched. -/
theorem claim3_verbose_parsing (d : Int) (e : Env) (c : HTTPProxyConfig) :
    (∀ v, c.verbose = false → e.verbose = some v →
      (((readFromEnvironment d e c).1).verbose = false ↔
        (v = "false" ∨ v = "0"))) ∧
    (e.verbose = none →
      ((readFromEnvironment d e c).1).verbose = c.verbose) := by
  constructor
  · intro v hv he
    rw [readFromEnvironment_fst_verbose]
    simp only [he, hv, Bool.false_or]
    by_cases h1 : v = "false"
    · subst h1
      simp [envVerboseValue]
    · by_cases h2 : v = "0"
      · subst h2
        simp [envVerboseValue]
      · simp [envVerboseValue, h1, h2]
  · intro he
    rw [readFromEnvironment_fst_verbose]
    simp only [he]

/-- Witness for claim3_verbose_parsing: the value "no" is parsed as
true (the documented permissive quirk). -/
theorem claim3_verbose_parsing_witness :
    ((readFromEnvironment 10000000000 ⟨none, none, none, some "no"⟩
        (initConfig 10000000000)).1).verbose = true := by
  have h := (claim3_verbose_parsing 10000000000
    ⟨none, none, none, some "no"⟩ (initConfig 10000000000)).1 "no" rfl rfl
  revert h
  decide

/-- C4 (error conditions, raises-iff): starting from the all-default
record, readFromEnvironment fails exactly when the port variable is
present and does not parse as a base-10 integer, or the timeout
variable is present and does not parse as a duration; the host and
verbose variables never contribute to the error. -/
theorem claim4_error_iff (d : Int) (e : Env) :
    (readFromEnvironment d e (initConfig d)).2 ≠ none ↔
      ((∃ p, e.port = some p ∧ (atoi p).2 = false) ∨
        (∃ t, e.timeout = some t ∧ (parseDuration t).2 = false)) := by
  rw [readFromEnvironment_snd]
  unfold portEnvError timeoutEnvError
  cases hp : e.port with
  | none =>
    cases ht : e.timeout with
    | none => simp
    | some t =>
      by_cases hd : (parseDuration t).2 = false
      · simp [initConfig, hd]
      · simp [initConfig, hd]
  | some p =>
    by_cases ha : (atoi p).2 = false
    · simp [initConfig, ha]
    · cases ht : e.timeout with
      | none => simp [initConfig, ha]
      | some t =>
        by_cases hd : (parseDuration t).2 = false
        · simp [initConfig, ha, hd]
        · simp [initConfig, ha, hd]

/-- Witness for claim4_error_iff: an unparseable port value forces a
non-nil error. -/
theorem claim4_error_iff_witness :
    (readFromEnvironment 10000000000
        ⟨none, some "notanumber", none, none⟩
        (initConfig 10000000000)).2 ≠ none := by
  have h := claim4_error_iff 10000000000 ⟨none, some "notanumber", none, none⟩
  exact h.mpr (Or.inl ⟨"notanumber", rfl, by decide⟩)

/-- C5 counterexample: defaults everywhere, TESLA_VERBOSE="true",
invalid port, valid timeout.  The claim says the verbose field keeps
its prior value when the port parse fails; the code processes
verbose before port, so verbose has already been flipped to true
when the port error is returned. -/
theorem claim5_counterexample :
    (readFromEnvironment 10000000000
        ⟨none, some "notanumber", some "30s", some "true"⟩
        (initConfig 10000000000)).2 ≠ none ∧
    ((readFromEnvironment 10000000000
        ⟨none, some "notanumber", some "30s", some "true"⟩
        (initConfig 10000000000)).1).verbose ≠
      (initConfig 10000000000).verbose := by
  refine ⟨by decide, by decide⟩

/-- C5 amended (no mutation past the failing port block): on an
invalid port value with the port field at its default, the call
returns the port error and the timeout field keeps its prior value;
the source processes the fields in the order host, verbose, port,
timeout, so host and verbose may already have been overwritten, and
the port field itself receives Atoi's return value. -/
theorem claim5_no_mutation_past_port (d : Int) (e : Env)
    (c : HTTPProxyConfig) (p : String) (h1 : e.port = some p)
    (h2 : (atoi p).2 = false) (h3 : c.port = defaultPort) :
    (readFromEnvironment d e c).2 = some ("invalid port: " ++ p) ∧
    ((readFromEnvironment d e c).1).timeout = c.timeout := by
  have hpe : portEnvError e c = some ("invalid port: " ++ p) := by
    unfold portEnvError
    rw [h1]
    simp [h3, h2]
  constructor
  · rw [readFromEnvironment_snd]
    simp only [hpe]
  · rw [readFromEnvironment_fst_timeout]
    simp only [hpe]

/-- Witness for claim5_no_mutation_past_port at a concrete invalid
port value. -/
theorem claim5_no_mutation_past_port_witness :
    (readFromEnvironment 10000000000
        ⟨none, some "notanumber", some "30s", some "true"⟩
        (initConfig 10000000000)).2 = some "invalid port: notanumber" ∧
    ((readFromEnvironment 10000000000
        ⟨none, some "notanumber", some "30s", some "true"⟩
        (initConfig 10000000000)).1).timeout = 10000000000 := by
  have h := claim5_no_mutation_past_port 10000000000
    ⟨none, some "notanumber", some "30s", some "true"⟩
    (initConfig 10000000000) "notanumber" rfl (by decide) rfl
  exact h

/-- C6 (defaults preserved): with no environment variable present and
the record at its flag defaults, readFromEnvironment returns the
record unchanged and a nil error. -/
theorem claim6_defaults_preserved (d : Int) :
    readFromEnvironment d ⟨none, none, none, none⟩ (initConfig d) =
      (initConfig d, none) := by
  unfold readFromEnvironment
  have h1 : applyHost ⟨none, none, none, none⟩ (initConfig d) =
      initConfig d := by
    unfold applyHost
    split <;> rfl
  have h2 : applyVerbose ⟨none, none, none, none⟩ (initConfig d) =
      initConfig d := by
    unfold applyVerbose
    split <;> rfl
  rw [h1, h2, applyPortThenTimeout_envNone _ _ _ rfl,
    applyTimeout_envNone _ _ _ rfl]

/-- C7 (environment-only resolution): starting from the all-default
record, when every present variable parses, readFromEnvironment
returns nil and each field holds the parsed environment value (or
its default when the variable is absent). -/
theorem claim7_env_only (d : Int) (e : Env)
    (hp : ∀ p, e.port = some p → (atoi p).2 = true)
    (ht : ∀ t, e.timeout = some t → (parseDuration t).2 = true) :
    readFromEnvironment d e (initConfig d) =
      ({ verbose := (match e.verbose with
            | some v => envVerboseValue v
            | none => false),
         host := e.host.getD "localhost",
         port := (match e.port with
            | some p => (atoi p).1
            | none => defaultPort),
         timeout := (match e.timeout with
            | some t => (parseDuration t).1
            | none => d) }, none) := by
  have hpe : portEnvError e (initConfig d) = none := by
    unfold portEnvError
    cases hep : e.port with
    | none => rfl
    | some p => simp [hp p hep]
  have hte : timeoutEnvError d e (initConfig d) = none := by
    unfold timeoutEnvError
    cases het : e.timeout with
    | none => rfl
    | some t => simp [ht t het]
  refine Prod.ext ?_ ?_
  · refine HTTPProxyConfig.ext ?_ ?_ ?_ ?_
    · rw [readFromEnvironment_fst_verbose]
      cases e.verbose <;> simp [initConfig]
    · rw [readFromEnvironment_fst_host]
      cases e.host <;> simp [initConfig]
    · rw [readFromEnvironment_fst_port]
      cases e.port <;> simp [initConfig]
    · rw [readFromEnvironment_fst_timeout]
      simp only [hpe]
      cases e.timeout <;> simp [initConfig]
  · rw [readFromEnvironment_snd]
    simp only [hpe, hte]

/-- Witness for claim7_env_only: the spec examples, port "9090" and
timeout "30s", together with a host and a verbose value. -/
theorem claim7_env_only_witness :
    readFromEnvironment 10000000000
        ⟨some "0.0.0.0", some "9090", some "30s", some "true"⟩
        (initConfig 10000000000) =
      (⟨true, "0.0.0.0", 9090, 30000000000⟩, none) := by
  have h := claim7_env_only 10000000000
    ⟨some "0.0.0.0", some "9090", some "30s", some "true"⟩
    (fun p hp => by cases hp; decide)
    (fun t ht => by cases ht; decide)
  rw [h]
  decide

/-- C8 counterexample: with an invalid port value and a valid
timeout value, the first run fails and clobbers the port field to 0;
the second run, no longer seeing the default 8080, skips the port
block, reaches the timeout block, and returns a different record
with a nil error. -/
theorem claim8_counterexample :
    readFromEnvironment 10000000000
        ⟨none, some "notanumber", some "30s", none⟩
        ((readFromEnvironment 10000000000
            ⟨none, some "notanumber", some "30s", none⟩
            (initConfig 10000000000)).1) ≠
      readFromEnvironment 10000000000
        ⟨none, some "notanumber", some "30s", none⟩
        (initConfig 10000000000) := by
  decide

/-- C8 amended (idempotence on success): when the first run returns
a nil error, running readFromEnvironment again on the resolved
record reproduces the same record and nil error; after a failed run
the clobbered port or timeout field no longer equals its default, so
a second run can behave differently. -/
theorem claim8_idempotent_on_success (d : Int) (e : Env)
    (c : HTTPProxyConfig)
    (h : (readFromEnvironment d e c).2 = none) :
    readFromEnvironment d e ((readFromEnvironment d e c).1) =
      readFromEnvironment d e c := by
  have hpe : portEnvError e c = none := by
    rw [readFromEnvironment_snd] at h
    cases hx : portEnvError e c with
    | none => rfl
    | some m => rw [hx] at h; cases h
  have hte : timeoutEnvError d e c = none := by
    rw [readFromEnvironment_snd, hpe] at h
    exact h
  have hH := readFromEnvironment_fst_host d e c
  have hV := readFromEnvironment_fst_verbose d e c
  have hP := readFromEnvironment_fst_port d e c
  have hT := readFromEnvironment_fst_timeout d e c
  rw [hpe] at hT
  have hpe1 : portEnvError e ((readFromEnvironment d e c).1) = none := by
    unfold portEnvError at hpe ⊢
    cases hep : e.port with
    | none => rfl
    | some p =>
      rw [hep] at hpe
      dsimp only at hpe
      by_cases hc : c.port = defaultPort
      · have ha : ¬((atoi p).2 = false) := by
          intro hforce
          rw [if_pos ⟨hc, hforce⟩] at hpe
          cases hpe
        simp [ha]
      · have hc1 : ((readFromEnvironment d e c).1).port = c.port := by
          rw [hP, hep]
          simp [hc]
        simp [hc1, hc]
  have hte1 : timeoutEnvError d e ((readFromEnvironment d e c).1) = none := by
    unfold timeoutEnvError at hte ⊢
    cases het : e.timeout with
    | none => rfl
    | some t =>
      rw [het] at hte
      dsimp only at hte
      by_cases hc : c.timeout = d
      · have hd : ¬((parseDuration t).2 = false) := by
          intro hforce
          rw [if_pos ⟨hc, hforce⟩] at hte
          cases hte
        simp [hd]
      · have hc1 : ((readFromEnvironment d e c).1).timeout = c.timeout := by
          rw [hT, het]
          simp [hc]
        simp [hc1, hc]
  refine Prod.ext ?_ ?_
  · refine HTTPProxyConfig.ext ?_ ?_ ?_ ?_
    · have hL := readFromEnvironment_fst_verbose d e
        ((readFromEnvironment d e c).1)
      rw [hL, hV]
      cases e.verbose with
      | none => rfl
      | some v => cases c.verbose <;> simp
    · have hL := readFromEnvironment_fst_host d e
        ((readFromEnvironment d e c).1)
      rw [hL, hH]
      cases e.host with
      | none => rfl
      | some hh => by_cases hch : c.host = "localhost" <;> simp [hch]
    · have hL := readFromEnvironment_fst_port d e
        ((readFromEnvironment d e c).1)
      rw [hL, hP]
      cases e.port with
      | none => rfl
      | some p => by_cases hc : c.port = defaultPort <;> simp [hc]
    · have hL := readFromEnvironment_fst_timeout d e
        ((readFromEnvironment d e c).1)
      rw [hL]
      simp only [hpe1]
      rw [hT]
      cases e.timeout with
      | none => rfl
      | some t => by_cases hc : c.timeout = d <;> simp [hc]
  · have hL := readFromEnvironment_snd d e ((readFromEnvironment d e c).1)
    have hR := readFromEnvironment_snd d e c
    rw [hL, hR]
    simp only [hpe1, hte1, hpe, hte]

/-- Witness for claim8_idempotent_on_success: a fully populated,
fully valid environment resolved from the default record. -/
theorem claim8_idempotent_on_success_witness :
    readFromEnvironment 10000000000
        ⟨some "envhost", some "9090", some "30s", some "1"⟩
        ((readFromEnvironment 10000000000
            ⟨some "envhost", some "9090", some "30s", some "1"⟩
            (initConfig 10000000000)).1) =
      readFromEnvironment 10000000000
        ⟨some "envhost", some "9090", some "30s", some "1"⟩
        (initConfig 10000000000) :=
  claim8_idempotent_on_success 10000000000
    ⟨some "envhost", some "9090", some "30s", some "1"⟩
    (initConfig 10000000000) (by decide)

/-- C9 counterexample: the environment value "70000" parses, the
resolution succeeds, and the resolved port 70000 lies outside
0–65535: the code performs no range validation. -/
theorem claim9_counterexample :
    (readFromEnvironment 10000000000 ⟨none, some "70000", none, none⟩
        (initConfig 10000000000)).2 = none ∧
    ¬(((readFromEnvironment 10000000000 ⟨none, some "70000", none, none⟩
        (initConfig 10000000000)).1).port ≤ 65535) := by
  refine ⟨by decide, by decide⟩

/-- C9 amended (port stays in the int64 range only): resolution
validates nothing about the port's magnitude beyond what Atoi's
64-bit arithmetic imposes, so the only invariant is the int64 range;
values outside 0–65535 pass through freely. -/
theorem claim9_port_int64_range (d : Int) (e : Env)
    (c : HTTPProxyConfig)
    (h : -(2 ^ 63) ≤ c.port ∧ c.port ≤ 2 ^ 63 - 1) :
    -(2 ^ 63) ≤ ((readFromEnvironment d e c).1).port ∧
      ((readFromEnvironment d e c).1).port ≤ 2 ^ 63 - 1 := by
  rw [readFromEnvironment_fst_port]
  cases e.port with
  | none => exact h
  | some p =>
    dsimp only
    by_cases hc : c.port = defaultPort
    · rw [if_pos hc]
      exact atoi_int64_range p
    · rw [if_neg hc]
      exact h

/-- Witness for claim9_port_int64_range at the out-of-0-65535 input
of the counterexample. -/
theorem claim9_port_int64_range_witness :
    -(2 ^ 63) ≤ ((readFromEnvironment 10000000000
        ⟨none, some "70000", none, none⟩
        (initConfig 10000000000)).1).port ∧
      ((readFromEnvironment 10000000000
          ⟨none, some "70000", none, none⟩
          (initConfig 10000000000)).1).port ≤ 2 ^ 63 - 1 :=
  claim9_port_int64_range 10000000000 ⟨none, some "70000", none, none⟩
    (initConfig 10000000000) (by decide)

/-- C10 counterexample: the 20-digit port value overflows int64;
strconv.Atoi returns the clamped maximum with a range error, so the
failed port field holds 9223372036854775807, not the zero value the
claim asserts. -/
theorem claim10_counterexample :
    (readFromEnvironment 10000000000
        ⟨none, some "99999999999999999999", none, none⟩
        (initConfig 10000000000)).2 ≠ none ∧
    ((readFromEnvironment 10000000000
        ⟨none, some "99999999999999999999", none, none⟩
        (initConfig 10000000000)).1).port ≠ 0 := by
  refine ⟨by decide, by decide⟩

/-- C10 amended (failing field receives the parser's error return):
on a failed port parse the port field holds Atoi's return value,
which is 0 for a syntax error but the clamped extreme 2^63-1 or
-2^63 for an out-of-range value; on a failed timeout parse the
timeout field holds ParseDuration's error return, always 0. -/
theorem claim10_fail_values (d : Int) (e : Env) (c : HTTPProxyConfig) :
    (∀ p, c.port = defaultPort → e.port = some p → (atoi p).2 = false →
      (readFromEnvironment d e c).2 ≠ none ∧
      ((readFromEnvironment d e c).1).port = (atoi p).1 ∧
      ((atoi p).1 = 0 ∨ (atoi p).1 = 2 ^ 63 - 1 ∨
        (atoi p).1 = -(2 ^ 63))) ∧
    (∀ t, c.timeout = d → e.timeout = some t →
      (parseDuration t).2 = false → portEnvError e c = none →
      (readFromEnvironment d e c).2 ≠ none ∧
      ((readFromEnvironment d e c).1).timeout = 0) := by
  constructor
  · intro p hc hep ha
    have hpe : portEnvError e c = some ("invalid port: " ++ p) := by
      unfold portEnvError
      rw [hep]
      simp [hc, ha]
    refine ⟨?_, ?_, ?_⟩
    · rw [readFromEnvironment_snd]
      simp [hpe]
    · rw [readFromEnvironment_fst_port]
      simp only [hep]
      rw [if_pos hc]
    · rcases atoi_values p with hv | hv
      · rw [ha] at hv
        cases hv
      · exact hv
  · intro t hc het hd hpe
    have hteE : timeoutEnvError d e c = some ("invalid timeout: " ++ t) := by
      unfold timeoutEnvError
      rw [het]
      simp [hc, hd]
    refine ⟨?_, ?_⟩
    · rw [readFromEnvironment_snd]
      simp [hpe, hteE]
    · rw [readFromEnvironment_fst_timeout]
      simp only [hpe, het]
      rw [if_pos hc]
      rcases parseDuration_values t with hv | hv
      · rw [hd] at hv
        cases hv
      · exact hv

/-- Witness for claim10_fail_values: the syntax-error port value
"notanumber" leaves port at Atoi's return value. -/
theorem claim10_fail_values_witness :
    (readFromEnvironment 10000000000
        ⟨none, some "notanumber", none, none⟩
        (initConfig 10000000000)).2 ≠ none ∧
    ((readFromEnvironment 10000000000
        ⟨none, some "notanumber", none, none⟩
        (initConfig 10000000000)).1).port = (atoi "notanumber").1 ∧
    ((atoi "notanumber").1 = 0 ∨ (atoi "notanumber").1 = 2 ^ 63 - 1 ∨
      (atoi "notanumber").1 = -(2 ^ 63)) :=
  (claim10_fail_values 10000000000 ⟨none, some "notanumber", none, none⟩
      (initConfig 10000000000)).1 "notanumber" rfl rfl (by decide)
